import Mathlib

set_option maxHeartbeats 1000000
set_option maxRecDepth 4000

namespace PreviewRawImage

/-! Shallow embedding of src/app.py (preview discovery, extraction and
format-normalization pipeline).  External collaborators (exiftool, the PIL
codec) are modeled as explicit oracles passed in an `Env`; everything else
is translated directly from the source. -/

/-- Python values as they appear in the exiftool JSON dump and in the code
paths under verification.  Numeric values are modeled as integers: no
verified claim depends on non-integer numerics. -/
inductive PyVal where
  | str : String → PyVal
  | int : Int → PyVal
  | bool : Bool → PyVal
  | null : PyVal
  | list : List PyVal → PyVal
  | dict : List (String × PyVal) → PyVal

/-- Python truthiness, as used by `or` chains and bare `if v:` tests. -/
def truthy : PyVal → Bool
  | .str s => !s.isEmpty
  | .int n => n != 0
  | .bool b => b
  | .null => false
  | .list xs => !xs.isEmpty
  | .dict kvs => !kvs.isEmpty

/-- Python `a or b`. -/
def pyOr (a b : PyVal) : PyVal :=
  if truthy a then a else b

mutual

/-- Python repr() (string escaping inside repr of strings is not modeled;
no verified claim depends on it). -/
def pyRepr : PyVal → String
  | .str s => "\x27" ++ s ++ "\x27"
  | .int n => toString n
  | .bool b => if b then "True" else "False"
  | .null => "None"
  | .list xs => "[" ++ pyReprList xs ++ "]"
  | .dict kvs => "\x7b" ++ pyReprDict kvs ++ "\x7d"

def pyReprList : List PyVal → String
  | [] => ""
  | [x] => pyRepr x
  | x :: y :: rest => pyRepr x ++ ", " ++ pyReprList (y :: rest)

def pyReprDict : List (String × PyVal) → String
  | [] => ""
  | [kv] => "\x27" ++ kv.1 ++ "\x27: " ++ pyRepr kv.2
  | kv :: kv2 :: rest => "\x27" ++ kv.1 ++ "\x27: " ++ pyRepr kv.2 ++ ", " ++ pyReprDict (kv2 :: rest)

end

/-- Python str() of a value, as in `str(raw_exif.get(full_key, ""))`. -/
def pyStrOf : PyVal → String
  | .str s => s
  | v => pyRepr v

-- ===== Structural string helpers (kernel-evaluable stand-ins for the
-- Python string primitives the code uses) =====

/-- Split a character list at every character satisfying `p`, keeping
empty pieces — the semantics of Python `s.split(c)` for a single
separator character when `p` tests for `c`. -/
def splitPredAux (p : Char → Bool) : List Char → List Char → List String
  | [], acc => [String.mk acc.reverse]
  | x :: xs, acc =>
      if p x then String.mk acc.reverse :: splitPredAux p xs []
      else splitPredAux p xs (x :: acc)

def splitPred (p : Char → Bool) (s : String) : List String :=
  splitPredAux p s.data []

/-- Python `s.split(c)` for a one-character separator. -/
def strSplitOnChar (c : Char) (s : String) : List String :=
  splitPred (fun x => x = c) s

def prefixOfChars : List Char → List Char → Bool
  | [], _ => true
  | _ :: _, [] => false
  | p :: ps, c :: cs => p = c && prefixOfChars ps cs

def containsSub (pat : List Char) : List Char → Bool
  | [] => pat.isEmpty
  | c :: cs => prefixOfChars pat (c :: cs) || containsSub pat cs

/-- Python `pat in s` (substring containment; patterns used by the code
are non-empty). -/
def strContains (s pat : String) : Bool :=
  containsSub pat.data s.data

/-- The characters Python's `str.strip()`/`int()` treat as whitespace
(ASCII portion). -/
def isPyWs (c : Char) : Bool :=
  c = ' ' || c = '\t' || c = '\n' || c = '\r' || c = '\x0b' || c = '\x0c'

def trimChars (cs : List Char) : List Char :=
  ((cs.dropWhile isPyWs).reverse.dropWhile isPyWs).reverse

/-- Python `s[:n]` on code points. -/
def strTake (s : String) (n : Nat) : String :=
  String.mk (s.data.take n)

/-- Python `s.upper()` (ASCII portion; the values reaching it in the
verified claims are ASCII or caseless). -/
def strUpper (s : String) : String :=
  String.mk (s.data.map Char.toUpper)

/-- Python int(string) digit part: digits with single underscores allowed
between digits. -/
def pyDigitsAux (acc : Nat) : List Char → Option Nat
  | [] => some acc
  | '_' :: c :: cs =>
      if c.isDigit then pyDigitsAux (acc * 10 + (c.toNat - 48)) cs else none
  | ['_'] => none
  | c :: cs =>
      if c.isDigit then pyDigitsAux (acc * 10 + (c.toNat - 48)) cs else none

def pyDigits? : List Char → Option Nat
  | [] => none
  | c :: cs => if c.isDigit then pyDigitsAux (c.toNat - 48) cs else none

/-- Python `int(s)` on a decimal string: surrounding whitespace is
stripped, an optional sign is allowed, then digits (with underscores
between digits). Returns none where Python raises ValueError. -/
def pyInt? (s : String) : Option Int :=
  match trimChars s.data with
  | '+' :: cs => (pyDigits? cs).map (fun n => (n : Int))
  | '-' :: cs => (pyDigits? cs).map (fun n => -(n : Int))
  | cs => (pyDigits? cs).map (fun n => (n : Int))

/-- Claim-side reading of "third whitespace-delimited token": Python
`s.split()` (split on runs of whitespace, no empty tokens). -/
def pyWhitespaceSplit (s : String) : List String :=
  (splitPred isPyWs s).filter (fun t => !t.isEmpty)

/-- Claim-side size parse: third whitespace-delimited token of the
stringified value, parsed as an integer.  (The source instead uses
`tag_value.split(" ")[2]`, i.e. single-space splitting.) -/
def wsThirdTokenSize? (v : PyVal) : Option Int :=
  match (pyWhitespaceSplit (pyStrOf v))[2]? with
  | some tok => pyInt? tok
  | none => none

-- ===== EXIF truncation (truncate_long_values, src/app.py:75-86) =====

def MAX_LENGTH : Nat := 200
def TRUNCATED_LENGTH : Nat := 40
def ELLIPSIS : String := "......"

mutual

/-- src/app.py:75-86 `truncate_long_values`: recursively walk the data
structure and truncate over-long string values.  The Python function
mutates and returns `data`; the model returns the new value.  The list
and dict cases are split into helper functions (Lean artifact of the
mutual recursion). -/
def truncate_long_values : PyVal → PyVal
  | .str s => if MAX_LENGTH < s.length then .str (strTake s TRUNCATED_LENGTH ++ ELLIPSIS) else .str s
  | .int n => .int n
  | .bool b => .bool b
  | .null => .null
  | .list xs => .list (truncateL xs)
  | .dict kvs => .dict (truncateD kvs)

def truncateL : List PyVal → List PyVal
  | [] => []
  | x :: xs => truncate_long_values x :: truncateL xs

def truncateD : List (String × PyVal) → List (String × PyVal)
  | [] => []
  | kv :: rest => (kv.1, truncate_long_values kv.2) :: truncateD rest

end

mutual

/-- Claim-side truncation relation (from the claim's words): every string
strictly longer than 200 units is replaced by exactly its first 40 units
followed by the fixed ellipsis marker; strings of 200 units or fewer and
non-string values are unchanged; this holds recursively through ordered
sequences and mappings (dict keys are untouched). -/
inductive Truncated : PyVal → PyVal → Prop where
  | strLong (s : String) : 200 < s.length → Truncated (.str s) (.str (strTake s 40 ++ "......"))
  | strShort (s : String) : s.length ≤ 200 → Truncated (.str s) (.str s)
  | int (n : Int) : Truncated (.int n) (.int n)
  | bool (b : Bool) : Truncated (.bool b) (.bool b)
  | null : Truncated .null .null
  | list {xs ys : List PyVal} : TruncatedL xs ys → Truncated (.list xs) (.list ys)
  | dict {kvs kvs' : List (String × PyVal)} : TruncatedD kvs kvs' → Truncated (.dict kvs) (.dict kvs')

/-- Elementwise `Truncated` on sequences. -/
inductive TruncatedL : List PyVal → List PyVal → Prop where
  | nil : TruncatedL [] []
  | cons {x y xs ys} : Truncated x y → TruncatedL xs ys → TruncatedL (x :: xs) (y :: ys)

/-- Elementwise `Truncated` on mapping entries: keys unchanged, values
related. -/
inductive TruncatedD : List (String × PyVal) → List (String × PyVal) → Prop where
  | nil : TruncatedD [] []
  | cons {k : String} {v w : PyVal} {kvs kvs'} :
      Truncated v w → TruncatedD kvs kvs' → TruncatedD ((k, v) :: kvs) ((k, w) :: kvs')

end

-- ===== Preview extraction (extract_preview_data, src/app.py:89-118) =====

/-- Result of `extract_preview_data`, together with the ordered list of
tags for which `exiftool -b` was actually invoked (one subprocess call
per attempted tag). -/
structure ExtractResult where
  attempted : List String
  ok : Bool
  data : Option (List Nat)
  used_tag : Option String
deriving DecidableEq

/-- src/app.py:99-116 loop body: for each tag run `exiftool -b -<tag>`.
The oracle returns the stdout bytes, or none where the subprocess exits
non-zero (CalledProcessError, caught and treated as "try next").  A
result is accepted only when `preview_data and len(preview_data) > 100`,
i.e. strictly more than 100 bytes. -/
def extractLoop (oracle : String → Option (List Nat)) : List String → ExtractResult
  | [] => ⟨[], false, none, none⟩
  | tag :: rest =>
    match oracle tag with
    | some d =>
        if 100 < d.length then ⟨[tag], true, some d, some tag⟩
        else
          let r := extractLoop oracle rest
          ⟨tag :: r.attempted, r.ok, r.data, r.used_tag⟩
    | none =>
        let r := extractLoop oracle rest
        ⟨tag :: r.attempted, r.ok, r.data, r.used_tag⟩

/-- src/app.py:97 `priority_tags = ['JpgFromRaw', 'PreviewImage'] if tag_name is None else [tag_name]`. -/
def priority_tags (tag_name : Option String) : List String :=
  match tag_name with
  | none => ["JpgFromRaw", "PreviewImage"]
  | some t => [t]

/-- src/app.py:89-118 `extract_preview_data`. -/
def extract_preview_data (oracle : String → Option (List Nat)) (tag_name : Option String) :
    ExtractResult :=
  extractLoop oracle (priority_tags tag_name)

-- ===== Format detection & conversion (src/app.py:154-213) =====

/-- The decoded-image view the code reads from the PIL codec: color mode,
dimensions and self-reported format. -/
structure PILImage where
  mode : String
  width : Nat
  height : Nat
  format : Option String
deriving DecidableEq

/-- External-collaborator oracles for one request: `exiftoolB` is
`exiftool -b -<tag>` on the current file; `decode` is `Image.open` (none
where it raises); `encodeJPEG` is `img.save(..., format='JPEG',
quality=95)` as a function of the image's color mode at save time (none
where it raises an I/O/format error); `copyOk` is the outcome of
`copy_exif_to_preview` (which catches all its exceptions and returns a
bool); `attachExif` is the temp file's content after a successful
metadata copy, as a function of the encoded bytes. -/
structure Env where
  exiftoolB : String → Option (List Nat)
  decode : List Nat → Option PILImage
  encodeJPEG : String → Option (List Nat)
  copyOk : Bool
  attachExif : List Nat → List Nat

/-- src/app.py:183-186: `if img.mode in ('RGBA', 'P', 'L'): img = img.convert('RGB')`. -/
def normalizeMode (m : String) : String :=
  if m = "RGBA" ∨ m = "P" ∨ m = "L" then "RGB" else m

/-- Modelled from the spec ("the target web format (JPEG) cannot represent
transparency") and the PIL mode table: the color modes that carry an
alpha channel. -/
def modeHasAlpha (m : String) : Bool :=
  m = "RGBA" || m = "LA" || m = "PA" || m = "RGBa" || m = "La"

/-- Modelled from the PIL mode table: number of channels of a color mode
(the conversion claims only use the three-channel modes). -/
def modeChannels (m : String) : Nat :=
  if m = "RGB" || m = "YCbCr" || m = "HSV" || m = "LAB" then 3
  else if m = "RGBA" || m = "CMYK" then 4
  else if m = "LA" || m = "PA" then 2
  else 1

/-- src/app.py:38-39 `SUPPORTED_WEB_FORMATS`. -/
def SUPPORTED_WEB_FORMATS : List String :=
  ["JPEG", "JPG", "PNG", "GIF", "WebP", "AVIF", "SVG", "BMP", "ICO"]

/-- src/app.py:155-161 `get_image_original_format`. -/
def get_image_original_format (env : Env) (binary_data : List Nat) : String :=
  match env.decode binary_data with
  | some img =>
      match img.format with
      | some f => strUpper f
      | none => "UNKNOWN"
  | none => "UNKNOWN"

/-- Result tuple of `convert_image_to_web_format`. -/
structure ConvertResult where
  ok : Bool
  data : Option (List Nat)
  width : Nat
  height : Nat
  original_format : String
deriving DecidableEq

/-- src/app.py:164-213 `convert_image_to_web_format` (target format is
always 'JPEG' at every call site).  `useTemp` is the truthiness of
`temp_file_prefix`: with it, the encoded image goes through the temp
file, `copy_exif_to_preview` runs (its boolean result is ignored by the
code), and the temp file's bytes are read back; without it, the encoded
bytes are returned directly.  A reattachment failure leaves the temp
file holding the plain encoded bytes. -/
def convert_image_to_web_format (env : Env) (binary_data : List Nat) (useTemp : Bool) :
    ConvertResult :=
  let original_format := get_image_original_format env binary_data
  match env.decode binary_data with
  | none => ⟨false, none, 0, 0, original_format⟩
  | some img =>
    match env.encodeJPEG (normalizeMode img.mode) with
    | none => ⟨false, none, 0, 0, original_format⟩
    | some encoded =>
      let converted := if useTemp then (if env.copyOk then env.attachExif encoded else encoded) else encoded
      ⟨true, some converted, img.width, img.height, original_format⟩

-- ===== Preview tag scanning (get_preview_tags, src/app.py:216-270) =====

/-- One entry of `valid_preview_tags` (src/app.py:252-261). -/
structure PreviewMeta where
  full_key : String
  size_bytes : Int
  converted_size : Nat
  width : Nat
  height : Nat
  original_format : String
  converted_format : String
  used_tag : String
deriving DecidableEq

/-- src/app.py:237: `full_key.split(":")[-1] if ":" in full_key else full_key`
(identical to the last piece of the colon split in both cases). -/
def localTagName (k : String) : String :=
  (strSplitOnChar ':' k).getLastD k

/-- src/app.py:222 `str(raw_exif.get(full_key, ""))` value fetch: the
record is a Python dict, so lookup is by key with default `""`. -/
def recordValue (record : List (String × PyVal)) (k : String) : PyVal :=
  match record.find? (fun p => p.1 = k) with
  | some p => p.2
  | none => .str ""

/-- src/app.py:223-229: marker test `"(Binary data" not in tag_value`,
then `int(tag_value.split(" ")[2])` with IndexError/ValueError silently
skipping the key. -/
def parsedSize? (v : PyVal) : Option Int :=
  if strContains (pyStrOf v) "(Binary data" then
    match (strSplitOnChar ' ' (pyStrOf v))[2]? with
    | some tok => pyInt? tok
    | none => none
  else none

/-- src/app.py:233: `10240 <= size_bytes <= 20 * 1024 * 1024`. -/
def sizeInRange (n : Int) : Bool :=
  10240 ≤ n && n ≤ 20 * 1024 * 1024

/-- The keys of `record` that pass the scanner's static filter (marker,
size parse, size window), with their parsed sizes; `l` is the iteration
list (the full record at the outer call). -/
def scanCandidatesOn (record l : List (String × PyVal)) : List (String × Int) :=
  l.filterMap (fun kv =>
    match parsedSize? (recordValue record kv.1) with
    | some n => if sizeInRange n then some (kv.1, n) else none
    | none => none)

def scanCandidates (record : List (String × PyVal)) : List (String × Int) :=
  scanCandidatesOn record record

/-- Python dict assignment `valid_preview_tags[tag_name] = {...}`: replace
the value in place if the key exists (keeping its position), else append. -/
def upsert : List (String × PreviewMeta) → String → PreviewMeta → List (String × PreviewMeta)
  | [], k, v => [(k, v)]
  | p :: rest, k, v => if p.1 = k then (p.1, v) :: rest else p :: upsert rest k v

/-- Python dict lookup. -/
def alookup : List (String × PreviewMeta) → String → Option PreviewMeta
  | [], _ => none
  | p :: rest, k => if p.1 = k then some p.2 else alookup rest k

/-- Loop body src/app.py:221-261 for one key, producing the dict entry if
the key passes the filter, extraction succeeds (`is_extract_success` and
non-empty data) and conversion succeeds (`is_success and converted_data`). -/
def candidateEntry (env : Env) (full_key : String) (v : PyVal) : Option PreviewMeta :=
  match parsedSize? v with
  | none => none
  | some size_bytes =>
    if sizeInRange size_bytes then
      match extract_preview_data env.exiftoolB (some (localTagName full_key)) with
      | ⟨_, ok, some binary_data, some used_tag⟩ =>
        if ok && !binary_data.isEmpty then
          match convert_image_to_web_format env binary_data true with
          | ⟨cok, some converted_data, w, h, oform⟩ =>
            if cok && !converted_data.isEmpty then
              some ⟨full_key, size_bytes, converted_data.length, w, h, oform,
                    if SUPPORTED_WEB_FORMATS.contains oform then oform else "JPEG",
                    used_tag⟩
            else none
          | _ => none
        else none
      | _ => none
    else none

/-- The `exiftool -b` invocations made while processing one key: none when
the key fails the static filter, otherwise exactly the tags attempted by
`extract_preview_data` (called with the key's local tag name). -/
def candidateCalls (env : Env) (full_key : String) (v : PyVal) : List String :=
  match parsedSize? v with
  | some n =>
      if sizeInRange n then
        (extract_preview_data env.exiftoolB (some (localTagName full_key))).attempted
      else []
  | none => []

/-- One iteration of the src/app.py:221-261 loop: accumulate the dict and
the subprocess-call trace. -/
def scanStep (env : Env) (record : List (String × PyVal))
    (acc : List (String × PreviewMeta) × List String) (kv : String × PyVal) :
    List (String × PreviewMeta) × List String :=
  (match candidateEntry env kv.1 (recordValue record kv.1) with
   | some m => upsert acc.1 (localTagName kv.1) m
   | none => acc.1,
   acc.2 ++ candidateCalls env kv.1 (recordValue record kv.1))

/-- Fold Python dict assignments over a list of (key, entry) pairs. -/
def foldUp (m : List (String × PreviewMeta)) (es : List (String × PreviewMeta)) :
    List (String × PreviewMeta) :=
  es.foldl (fun m e => upsert m e.1 e.2) m

/-- The (tag_name, entry) pairs the loop successfully produces, in
iteration order. -/
def entriesOn (env : Env) (record l : List (String × PyVal)) : List (String × PreviewMeta) :=
  l.filterMap (fun kv =>
    (candidateEntry env kv.1 (recordValue record kv.1)).map (fun m => (localTagName kv.1, m)))

def successEntries (env : Env) (record : List (String × PyVal)) : List (String × PreviewMeta) :=
  entriesOn env record record

/-- The full subprocess-call trace of the scanning loop. -/
def callsOn (env : Env) (record l : List (String × PyVal)) : List String :=
  (l.map (fun kv => candidateCalls env kv.1 (recordValue record kv.1))).flatten

/-- Stable insertion into a descending-sorted list: x goes in front of the
first element whose key is ≤ its own, so earlier elements win ties. -/
def insertDesc (key : String → Int) (x : String) : List String → List String
  | [] => [x]
  | y :: ys => if key y ≤ key x then x :: y :: ys else y :: insertDesc key x ys

/-- Stable descending sort; extensionally Python's
`sorted(keys, key=..., reverse=True)` (which also keeps ties in original
order). -/
def sortDesc (key : String → Int) : List String → List String
  | [] => []
  | x :: xs => insertDesc key x (sortDesc key xs)

/-- Sort key src/app.py:264-268: `valid_preview_tags[x]["size_bytes"]`. -/
def metaSize (m : List (String × PreviewMeta)) (t : String) : Int :=
  match alookup m t with
  | some x => x.size_bytes
  | none => 0

/-- src/app.py:216-270 `get_preview_tags`: returns the size-sorted tag
list, the dict of retained previews, and (model instrumentation) the
ordered trace of `exiftool -b` calls made while scanning. -/
def get_preview_tags (env : Env) (record : List (String × PyVal)) :
    List String × List (String × PreviewMeta) × List String :=
  let folded := record.foldl (scanStep env record) ([], [])
  (sortDesc (metaSize folded.1) (folded.1.map Prod.fst), folded.1, folded.2)

-- ===== Size formatting and the upload manifest (src/app.py:295-313, 376-412) =====

/-- Round a/b to the nearest integer, ties to even (the rounding of
Python's `:.2f` formatting; exact for the dyadic denominators 1024 and
1048576 used for sizes, an idealization of binary-float rounding for the
denominator 1000 used for sensor sizes). -/
def roundHalfEvenNat (a b : Nat) : Nat :=
  let q := a / b
  let r := a % b
  if b < 2 * r then q + 1
  else if 2 * r = b then (if q % 2 = 1 then q + 1 else q) else q

/-- Python `f"{num/den:.2f}"`. -/
def format2f (num den : Int) : String :=
  let sign := if num < 0 then "-" else ""
  let h := roundHalfEvenNat (num.natAbs * 100) den.natAbs
  let ip := h / 100
  let fp := h % 100
  sign ++ toString ip ++ "." ++ (if fp < 10 then "0" else "") ++ toString fp

/-- The human-readable size rendering duplicated at src/app.py:306-311,
380-386 and 389-395: `"<n> B"`, `"<n/1024:.2f> KB"`, `"<n/1048576:.2f> MB"`. -/
def humanSize (n : Int) : String :=
  if n < 1024 then toString n ++ " B"
  else if n < 1024 * 1024 then format2f n 1024 ++ " KB"
  else format2f n (1024 * 1024) ++ " MB"

/-- One element of the `previews` list built at src/app.py:397-410. -/
structure PreviewEntry where
  tag : String
  full_tag : String
  size_str : String
  size_bytes : Nat
  raw_size_str : String
  raw_size_bytes : Int
  width : Nat
  height : Nat
  resolution_str : String
  original_format : String
  converted_format : String
  used_tag : String
deriving DecidableEq

/-- src/app.py:377-410 loop body for one tag. -/
def previewEntryOf (tag : String) (meta : PreviewMeta) : PreviewEntry :=
  ⟨tag, meta.full_key,
   humanSize (meta.converted_size : Int), meta.converted_size,
   humanSize meta.size_bytes, meta.size_bytes,
   meta.width, meta.height,
   toString meta.width ++ "×" ++ toString meta.height,
   meta.original_format, meta.converted_format, meta.used_tag⟩

/-- src/app.py:376-412: `for tag in preview_tags[:5]` builds entries from
the dict, then `previews = [p for p in previews if p['size_bytes'] > 0]`. -/
def buildPreviews (sorted_tags : List String) (meta : List (String × PreviewMeta)) :
    List PreviewEntry :=
  ((sorted_tags.take 5).filterMap (fun t => (alookup meta t).map (previewEntryOf t))).filter
    (fun p => 0 < p.size_bytes)

/-- The final preview manifest of one uploaded file. -/
def previewManifest (env : Env) (record : List (String × PyVal)) : List PreviewEntry :=
  buildPreviews (get_preview_tags env record).1 (get_preview_tags env record).2.1

-- ===== Display field normalization (parse_exif_for_display, src/app.py:295-342) =====

/-- Python `raw_exif.get(k)`: None when the key is absent. -/
def gv (record : List (String × PyVal)) (k : String) : PyVal :=
  match record.find? (fun p => p.1 = k) with
  | some p => p.2
  | none => .null

/-- The normalized display record (src/app.py:322-342).  String-typed
fields are those the code always renders to str; the rest carry the raw
looked-up values. -/
structure DisplayMeta where
  fileName : String
  fileSize : String
  fileFormat : String
  shootTime : PyVal
  cameraModel : PyVal
  lensModel : PyVal
  sensorSize : String
  resolutionWidth : PyVal
  resolutionHeight : PyVal
  iso : PyVal
  shutterSpeed : PyVal
  aperture : PyVal
  focalLength : PyVal
  exposureBias : PyVal
  whiteBalance : PyVal

/-- src/app.py:298-313, the `file_size` computation.  Result
`some s` means the local variable `file_size` was assigned `s`; `none`
means it was left unassigned (the branch where the string size parses as
an int converts it and then assigns nothing); an error is a TypeError
raised by the `<` comparison on an unorderable value. -/
def fileSizeStep (record : List (String × PyVal)) : Except String (Option String) :=
  let fsb := pyOr (gv record "System:FileSize") (gv record "File:FileSize")
  if truthy fsb then
    match fsb with
    | .str s =>
        match pyInt? s with
        | some _ => Except.ok none
        | none => Except.ok (some "未知")
    | .int n => Except.ok (some (humanSize n))
    | .bool _ => Except.ok (some "True B")
    | _ => Except.error "TypeError"
  else Except.ok (some "未知")

/-- src/app.py:325 `raw_exif.get("File:FileTypeExtension", "未知").upper()`:
AttributeError when the present value is not a string. -/
def fileFormatStep (record : List (String × PyVal)) : Except String String :=
  match (record.find? (fun p => p.1 = "File:FileTypeExtension")).map Prod.snd with
  | some (.str s) => Except.ok (strUpper s)
  | some _ => Except.error "AttributeError"
  | none => Except.ok "未知"

/-- src/app.py:318-320, sensor size: formatted only when both dimensions
are truthy, TypeError when a truthy dimension does not support division. -/
def sensorSizeStep (record : List (String × PyVal)) : Except String String :=
  let sw := pyOr (gv record "Canon:SensorWidth") (pyOr (gv record "EXIF:SensorWidth") (.int 0))
  let sh := pyOr (gv record "Canon:SensorHeight") (pyOr (gv record "EXIF:SensorHeight") (.int 0))
  if truthy sw && truthy sh then
    match sw, sh with
    | .int w, .int h => Except.ok (format2f w 1000 ++ " × " ++ format2f h 1000 ++ " mm")
    | .bool bw, .int h => Except.ok (format2f (if bw then 1 else 0) 1000 ++ " × " ++ format2f h 1000 ++ " mm")
    | .int w, .bool bh => Except.ok (format2f w 1000 ++ " × " ++ format2f (if bh then 1 else 0) 1000 ++ " mm")
    | .bool bw, .bool bh => Except.ok (format2f (if bw then 1 else 0) 1000 ++ " × " ++ format2f (if bh then 1 else 0) 1000 ++ " mm")
    | _, _ => Except.error "TypeError"
  else Except.ok "未知"

/-- src/app.py:295-342 `parse_exif_for_display`.  The evaluation order of
the Python function is kept: the file-size block runs first (it can raise
TypeError), then the fallback chains, then the sensor-size f-string, and
only at dict construction are the possibly-unbound `file_size` and the
`.upper()` call evaluated. -/
def parse_exif_for_display (raw_exif : List (String × PyVal)) (original_filename : String) :
    Except String DisplayMeta := do
  let fsOpt ← fileSizeStep raw_exif
  let cameraModel := pyOr (gv raw_exif "IFD0:Model") (pyOr (gv raw_exif "EXIF:Model")
      (pyOr (gv raw_exif "MakerNotes:Model") (.str "未知")))
  let lensModel := pyOr (gv raw_exif "Canon:LensModel") (pyOr (gv raw_exif "EXIF:LensModel")
      (pyOr (gv raw_exif "MakerNotes:LensModel") (pyOr (gv raw_exif "Composite:LensID") (.str "未知"))))
  let sensorSize ← sensorSizeStep raw_exif
  let fileSize ← match fsOpt with
    | some s => Except.ok s
    | none => Except.error "UnboundLocalError"
  let fileFormat ← fileFormatStep raw_exif
  Except.ok
    ⟨original_filename, fileSize, fileFormat,
     pyOr (gv raw_exif "Composite:SubSecDateTimeOriginal") (pyOr (gv raw_exif "EXIF:DateTimeOriginal")
       (pyOr (gv raw_exif "MakerNotes:DateTimeOriginal") (.str "未知"))),
     cameraModel, lensModel, sensorSize,
     pyOr (gv raw_exif "EXIF:ImageWidth") (pyOr (gv raw_exif "MakerNotes:ImageWidth") (.str "未知")),
     pyOr (gv raw_exif "EXIF:ImageHeight") (pyOr (gv raw_exif "MakerNotes:ImageHeight") (.str "未知")),
     pyOr (gv raw_exif "Composite:ISO") (pyOr (gv raw_exif "EXIF:ISO")
       (pyOr (gv raw_exif "MakerNotes:ISO") (.str "未知"))),
     pyOr (gv raw_exif "Composite:ShutterSpeed") (pyOr (gv raw_exif "EXIF:ExposureTime")
       (pyOr (gv raw_exif "MakerNotes:ExposureTime") (.str "未知"))),
     pyOr (gv raw_exif "Composite:Aperture") (pyOr (gv raw_exif "EXIF:FNumber")
       (pyOr (gv raw_exif "MakerNotes:Aperture") (.str "未知"))),
     pyOr (gv raw_exif "Canon:FocalLength") (pyOr (gv raw_exif "EXIF:FocalLength")
       (pyOr (gv raw_exif "MakerNotes:FocalLength") (.str "未知"))),
     pyOr (gv raw_exif "Canon:ExposureCompensation") (pyOr (gv raw_exif "EXIF:ExposureBiasValue")
       (pyOr (gv raw_exif "MakerNotes:ExposureCompensation") (.str "未知"))),
     pyOr (gv raw_exif "Canon:WhiteBalance") (pyOr (gv raw_exif "EXIF:WhiteBalance")
       (pyOr (gv raw_exif "MakerNotes:WhiteBalance") (.str "未知")))⟩

-- ===== Concrete inputs used by counterexamples and witnesses =====

/-- An environment where every external step succeeds: extraction yields
101 bytes, decoding yields a 4×3 RGB JPEG, encoding yields 10 bytes, and
the metadata copy fails (its result is ignored by the code anyway). -/
def envOK : Env :=
  ⟨fun _ => some (List.replicate 101 7),
   fun _ => some ⟨"RGB", 4, 3, some "jpeg"⟩,
   fun _ => some (List.replicate 10 1),
   false,
   id⟩

/-- A record whose single value contains the binary marker and whose third
single-space token is an in-range integer, but whose third
whitespace-delimited token is not an integer (a tab hides inside the
first space-delimited token). -/
def recordTab : List (String × PyVal) :=
  [("Foo:Bar", PyVal.str "a\tb x 20000 (Binary data")]

/-- A typical record with one well-formed binary descriptor. -/
def recordPreview : List (String × PyVal) :=
  [("EXIF:PreviewImage", PyVal.str "(Binary data, 153600 bytes)")]

/-- The dict entry the pipeline builds for `recordPreview` under `envOK`. -/
def metaPreview : PreviewMeta :=
  ⟨"EXIF:PreviewImage", 153600, 10, 4, 3, "JPEG", "JPEG", "PreviewImage"⟩

/-- An oracle returning exactly 100 bytes for every tag. -/
def oracle100 : String → Option (List Nat) := fun _ => some (List.replicate 100 0)

/-- An oracle returning 101 bytes for every tag. -/
def oracle101 : String → Option (List Nat) := fun _ => some (List.replicate 101 0)

/-- A decoder yielding an LA-mode (gray + alpha) image, paired with an
encoder that—per the spec's "JPEG cannot represent transparency"—fails on
every alpha-carrying mode and succeeds otherwise. -/
def envLA : Env :=
  ⟨fun _ => none,
   fun _ => some ⟨"LA", 8, 8, some "PNG"⟩,
   fun m => if modeHasAlpha m then none else some [1, 2, 3],
   true,
   id⟩

/-- A decoder yielding an RGBA image under the same transparency-faithful
encoder. -/
def envRGBA : Env :=
  ⟨fun _ => none,
   fun _ => some ⟨"RGBA", 2, 2, some "PNG"⟩,
   fun m => if modeHasAlpha m then none else some [9],
   true,
   id⟩

-- ===== Theorems =====

mutual

theorem truncated_of : (v : PyVal) → Truncated v (truncate_long_values v)
  | .str s => by
      unfold truncate_long_values
      split
      next h => exact Truncated.strLong s h
      next h => exact Truncated.strShort s (Nat.le_of_not_lt h)
  | .int n => by unfold truncate_long_values; exact Truncated.int n
  | .bool b => by unfold truncate_long_values; exact Truncated.bool b
  | .null => by unfold truncate_long_values; exact Truncated.null
  | .list xs => by unfold truncate_long_values; exact Truncated.list (truncatedL_of xs)
  | .dict kvs => by unfold truncate_long_values; exact Truncated.dict (truncatedD_of kvs)

theorem truncatedL_of : (xs : List PyVal) → TruncatedL xs (truncateL xs)
  | [] => by unfold truncateL; exact TruncatedL.nil
  | x :: xs => by
      unfold truncateL
      exact TruncatedL.cons (truncated_of x) (truncatedL_of xs)

theorem truncatedD_of : (kvs : List (String × PyVal)) → TruncatedD kvs (truncateD kvs)
  | [] => by unfold truncateD; exact TruncatedD.nil
  | (k, v) :: kvs => by
      unfold truncateD
      exact TruncatedD.cons (truncated_of v) (truncatedD_of kvs)

end

/-- C2 (confirmed): for every value nested at any depth in a metadata
record — including values inside nested mappings and ordered sequences —
the truncation pass replaces every string strictly longer than 200 units
with exactly its first 40 units followed by the fixed ellipsis marker
"......", and leaves every string of 200 units or fewer, and every
non-string value, unchanged. -/
theorem C2_truncation : ∀ v : PyVal, Truncated v (truncate_long_values v) :=
  truncated_of

theorem extractLoop_nil (oracle : String → Option (List Nat)) :
    extractLoop oracle [] = ⟨[], false, none, none⟩ := rfl

theorem extractLoop_cons (oracle : String → Option (List Nat)) (tag : String)
    (rest : List String) :
    extractLoop oracle (tag :: rest) =
      match oracle tag with
      | some d =>
          if 100 < d.length then ⟨[tag], true, some d, some tag⟩
          else ⟨tag :: (extractLoop oracle rest).attempted, (extractLoop oracle rest).ok,
                (extractLoop oracle rest).data, (extractLoop oracle rest).used_tag⟩
      | none => ⟨tag :: (extractLoop oracle rest).attempted, (extractLoop oracle rest).ok,
                 (extractLoop oracle rest).data, (extractLoop oracle rest).used_tag⟩ := rfl

theorem extractLoop_attempted_single (oracle : String → Option (List Nat)) (t : String) :
    (extractLoop oracle [t]).attempted = [t] := by
  rw [extractLoop_cons]
  cases oracle t
  · rfl
  · dsimp only
    split <;> rfl

theorem extractLoop_attempted_cons (oracle : String → Option (List Nat)) (tag : String)
    (rest : List String) :
    (extractLoop oracle (tag :: rest)).attempted = [tag] ∨
    (extractLoop oracle (tag :: rest)).attempted = tag :: (extractLoop oracle rest).attempted := by
  rw [extractLoop_cons]
  cases oracle tag
  · exact Or.inr rfl
  · dsimp only
    split
    · exact Or.inl rfl
    · exact Or.inr rfl

/-- C3 (corrected, amended part): with no tag hint the extractor attempts
JpgFromRaw strictly before PreviewImage (its subprocess trace is a prefix
of [JpgFromRaw, PreviewImage] starting with JpgFromRaw); with an explicit
tag hint it attempts only the hinted tag, never the priority list. -/
theorem C3_priority (oracle : String → Option (List Nat)) :
    ((extract_preview_data oracle none).attempted = ["JpgFromRaw"] ∨
      (extract_preview_data oracle none).attempted = ["JpgFromRaw", "PreviewImage"]) ∧
    ∀ t, (extract_preview_data oracle (some t)).attempted = [t] := by
  constructor
  · show (extractLoop oracle ["JpgFromRaw", "PreviewImage"]).attempted = ["JpgFromRaw"] ∨
      (extractLoop oracle ["JpgFromRaw", "PreviewImage"]).attempted = ["JpgFromRaw", "PreviewImage"]
    rcases extractLoop_attempted_cons oracle "JpgFromRaw" ["PreviewImage"] with h | h
    · exact Or.inl h
    · refine Or.inr ?_
      rw [h, extractLoop_attempted_single]
  · intro t
    show (extractLoop oracle [t]).attempted = [t]
    exact extractLoop_attempted_single oracle t

/-- C3 (counterexample): called with the explicit tag hint "Foo", the
extractor attempts only ["Foo"]; JpgFromRaw is never attempted, so the
fixed priority list is not tried before the hint, contrary to the claim. -/
theorem C3_counterexample :
    (extract_preview_data (fun _ => none) (some "Foo")).attempted = ["Foo"] ∧
    "JpgFromRaw" ∉ (extract_preview_data (fun _ => none) (some "Foo")).attempted := by
  decide

theorem extractLoop_cons_success (oracle : String → Option (List Nat)) (tag : String)
    (rest : List String) (d : List Nat) (h : oracle tag = some d) (hl : 100 < d.length) :
    extractLoop oracle (tag :: rest) = ⟨[tag], true, some d, some tag⟩ := by
  rw [extractLoop_cons, h]
  dsimp only
  rw [if_pos hl]

theorem extractLoop_cons_continue (oracle : String → Option (List Nat)) (tag : String)
    (rest : List String)
    (hc : oracle tag = none ∨ ∃ d, oracle tag = some d ∧ ¬ 100 < d.length) :
    (extractLoop oracle (tag :: rest)).ok = (extractLoop oracle rest).ok ∧
    (extractLoop oracle (tag :: rest)).data = (extractLoop oracle rest).data ∧
    (extractLoop oracle (tag :: rest)).used_tag = (extractLoop oracle rest).used_tag := by
  rw [extractLoop_cons]
  rcases hc with h | ⟨d, h, hl⟩
  · rw [h]
    exact ⟨rfl, rfl, rfl⟩
  · rw [h]
    dsimp only
    rw [if_neg hl]
    exact ⟨rfl, rfl, rfl⟩

theorem extractLoop_spec (oracle : String → Option (List Nat)) : ∀ tags : List String,
    ((extractLoop oracle tags).ok = true ↔
      ∃ t ∈ tags, ∃ d, oracle t = some d ∧ 100 < d.length) ∧
    (∀ d, (extractLoop oracle tags).data = some d → 100 < d.length) ∧
    ((extractLoop oracle tags).ok = false →
      (extractLoop oracle tags).data = none ∧ (extractLoop oracle tags).used_tag = none)
  | [] => by
      refine ⟨?_, ?_, ?_⟩ <;> simp [extractLoop]
  | tag :: rest => by
      have ih := extractLoop_spec oracle rest
      by_cases hs : ∃ d, oracle tag = some d ∧ 100 < d.length
      · obtain ⟨d, h, hl⟩ := hs
        rw [extractLoop_cons_success oracle tag rest d h hl]
        refine ⟨?_, ?_, ?_⟩
        · constructor
          · intro _
            exact ⟨tag, List.mem_cons_self tag rest, d, h, hl⟩
          · intro _
            rfl
        · intro d2 hd2
          injection hd2 with hd2
          rw [← hd2]
          exact hl
        · intro hok
          exact Bool.noConfusion hok
      · have hc : oracle tag = none ∨ ∃ d, oracle tag = some d ∧ ¬ 100 < d.length := by
          cases h : oracle tag with
          | none => exact Or.inl rfl
          | some d => exact Or.inr ⟨d, rfl, fun hl => hs ⟨d, h, hl⟩⟩
        obtain ⟨hok, hdata, hused⟩ := extractLoop_cons_continue oracle tag rest hc
        refine ⟨?_, ?_, ?_⟩
        · rw [hok, ih.1]
          constructor
          · rintro ⟨t, ht, hd⟩
            exact ⟨t, List.mem_cons_of_mem _ ht, hd⟩
          · rintro ⟨t, ht, hd⟩
            rcases List.mem_cons.mp ht with rfl | ht2
            · exact absurd hd hs
            · exact ⟨t, ht2, hd⟩
        · rw [hdata]
          exact ih.2.1
        · rw [hok, hdata, hused]
          exact ih.2.2

/-- C8 (corrected, amended part): extraction succeeds exactly when some
candidate tag yields strictly more than 100 bytes (a result of 100 bytes
or fewer is invalid and the loop continues); any returned payload is
strictly longer than 100 bytes; and on overall failure the function
returns (false, none, none) rather than raising. -/
theorem C8_extract_validity (oracle : String → Option (List Nat)) (hint : Option String) :
    ((extract_preview_data oracle hint).ok = true ↔
      ∃ t ∈ priority_tags hint, ∃ d, oracle t = some d ∧ 100 < d.length) ∧
    (∀ d, (extract_preview_data oracle hint).data = some d → 100 < d.length) ∧
    ((extract_preview_data oracle hint).ok = false →
      (extract_preview_data oracle hint).data = none ∧
      (extract_preview_data oracle hint).used_tag = none) :=
  extractLoop_spec oracle (priority_tags hint)

/-- C8 (counterexample): an extraction result of exactly 100 bytes is
rejected — with every tag yielding exactly 100 bytes the extractor
returns overall failure, while the claim says a result of exactly 100
bytes is accepted. -/
theorem C8_counterexample :
    (oracle100 "JpgFromRaw").map List.length = some 100 ∧
    (oracle100 "PreviewImage").map List.length = some 100 ∧
    (extract_preview_data oracle100 none).ok = false := by
  decide

/-- C8 witness: a 101-byte result is accepted. -/
theorem C8_witness : (extract_preview_data oracle101 none).ok = true :=
  (C8_extract_validity oracle101 none).1.mpr
    ⟨"JpgFromRaw", by decide, List.replicate 101 0, rfl, by decide⟩

/-- C5 (corrected, amended part): for a decodable input whose mode is one
of RGBA, P or L — the modes the code normalizes — the image is converted
to three-channel, alpha-free RGB before JPEG encoding, so with an encoder
that handles RGB the conversion succeeds. -/
theorem C5_normalize (env : Env) (b : List Nat) (img : PILImage) (e : List Nat)
    (hd : env.decode b = some img)
    (hm : img.mode = "RGBA" ∨ img.mode = "P" ∨ img.mode = "L")
    (he : env.encodeJPEG "RGB" = some e) :
    normalizeMode img.mode = "RGB" ∧
    modeChannels (normalizeMode img.mode) = 3 ∧
    modeHasAlpha (normalizeMode img.mode) = false ∧
    (convert_image_to_web_format env b true).ok = true := by
  have hn : normalizeMode img.mode = "RGB" := by
    unfold normalizeMode
    rw [if_pos hm]
  refine ⟨hn, by rw [hn]; decide, by rw [hn]; decide, ?_⟩
  unfold convert_image_to_web_format
  rw [hd]
  dsimp only
  rw [hn, he]

/-- C5 (counterexample): the mode LA carries an alpha channel but is not
normalized to RGB, and with an encoder that (per the spec) cannot
represent transparency in JPEG, converting an LA image fails — contrary
to the claim that conversion never fails due to transparency. -/
theorem C5_counterexample :
    modeHasAlpha "LA" = true ∧
    normalizeMode "LA" = "LA" ∧
    (convert_image_to_web_format envLA [0] true).ok = false := by
  decide

/-- C5 witness: an RGBA input converts successfully under a
transparency-faithful JPEG encoder. -/
theorem C5_witness : (convert_image_to_web_format envRGBA [0] true).ok = true :=
  (C5_normalize envRGBA [0] ⟨"RGBA", 2, 2, some "PNG"⟩ [9] rfl (Or.inl rfl) (by decide)).2.2.2

/-- C6 (confirmed): when decoding and re-encoding succeed but the
metadata-reattachment step fails (copy_exif_to_preview returns false,
never raising), the converter still returns success and the re-encoded
bitmap bytes — a reattachment failure is never propagated as an overall
conversion failure. -/
theorem C6_partial_success (env : Env) (b : List Nat) (img : PILImage) (e : List Nat)
    (hd : env.decode b = some img)
    (he : env.encodeJPEG (normalizeMode img.mode) = some e)
    (hcopy : env.copyOk = false) :
    (convert_image_to_web_format env b true).ok = true ∧
    (convert_image_to_web_format env b true).data = some e := by
  unfold convert_image_to_web_format
  rw [hd]
  dsimp only
  rw [he]
  simp [hcopy]

/-- C6 witness: concrete conversion with failing metadata copy still
returns the encoded bytes. -/
theorem C6_witness :
    (convert_image_to_web_format envOK [0] true).ok = true ∧
    (convert_image_to_web_format envOK [0] true).data = some (List.replicate 10 1) :=
  C6_partial_success envOK [0] ⟨"RGB", 4, 3, some "jpeg"⟩ (List.replicate 10 1) rfl rfl rfl

/-- C9 (code_bug): the display normalizer is not total.  On a record whose
FileSize is the string "1000" (present, parseable), the string branch
converts it with int() and then assigns nothing to file_size, so building
the result dict raises UnboundLocalError — the code crashes exactly when
the string size parses, while the claim (and the surrounding except
handler) intend a rendered size. -/
theorem C9_unbound_file_size :
    parse_exif_for_display [("System:FileSize", PyVal.str "1000")] "a.nef" =
      Except.error "UnboundLocalError" := rfl

-- ===== Dict and fold lemmas for the scanner =====

theorem alookup_upsert (m : List (String × PreviewMeta)) (k : String) (v : PreviewMeta)
    (k' : String) :
    alookup (upsert m k v) k' = if k' = k then some v else alookup m k' := by
  induction m with
  | nil =>
      by_cases h : k' = k
      · subst h
        simp [upsert, alookup]
      · have h2 : ¬ k = k' := fun hh => h hh.symm
        simp [upsert, alookup, h, h2]
  | cons p rest ih =>
      by_cases hpk : p.1 = k
      · by_cases h : k' = k
        · subst h
          simp [upsert, alookup, hpk]
        · have h2 : ¬ p.1 = k' := fun hh => h (by rw [← hh]; exact hpk)
          have h3 : ¬ k = k' := fun hh => h hh.symm
          simp [upsert, alookup, hpk, h, h2, h3]
      · by_cases hpk' : p.1 = k'
        · have h3 : ¬ k' = k := fun hh => hpk (by rw [hpk', hh])
          simp [upsert, alookup, hpk, hpk', h3]
        · simp [upsert, alookup, hpk, hpk', ih]

theorem mem_keys_upsert (m : List (String × PreviewMeta)) (k : String) (v : PreviewMeta)
    (a : String) :
    a ∈ (upsert m k v).map Prod.fst ↔ a ∈ m.map Prod.fst ∨ a = k := by
  induction m with
  | nil => simp [upsert]
  | cons p rest ih =>
      by_cases hpk : p.1 = k
      · subst hpk
        simp [upsert]
        tauto
      · simp [upsert, hpk, ih]
        tauto

theorem nodup_keys_upsert (m : List (String × PreviewMeta)) (k : String) (v : PreviewMeta)
    (h : (m.map Prod.fst).Nodup) : ((upsert m k v).map Prod.fst).Nodup := by
  induction m with
  | nil => simp [upsert]
  | cons p rest ih =>
      simp only [List.map_cons, List.nodup_cons] at h
      by_cases hpk : p.1 = k
      · simp only [upsert, if_pos hpk, List.map_cons, List.nodup_cons]
        exact ⟨h.1, h.2⟩
      · simp only [upsert, if_neg hpk, List.map_cons, List.nodup_cons]
        refine ⟨?_, ih h.2⟩
        rw [mem_keys_upsert]
        rintro (hmem | rfl)
        · exact h.1 hmem
        · exact hpk rfl

theorem foldUp_cons (m : List (String × PreviewMeta)) (e : String × PreviewMeta)
    (es : List (String × PreviewMeta)) :
    foldUp m (e :: es) = foldUp (upsert m e.1 e.2) es := rfl

theorem nodup_keys_foldUp : ∀ (es : List (String × PreviewMeta)) (m : List (String × PreviewMeta)),
    (m.map Prod.fst).Nodup → ((foldUp m es).map Prod.fst).Nodup
  | [], _, h => h
  | e :: es, m, h => nodup_keys_foldUp es (upsert m e.1 e.2) (nodup_keys_upsert m e.1 e.2 h)

theorem alookup_foldUp : ∀ (es : List (String × PreviewMeta)) (m : List (String × PreviewMeta))
    (k : String),
    alookup (foldUp m es) k =
      (match es.reverse.find? (fun e => e.1 == k) with
       | some e => some e.2
       | none => alookup m k)
  | [], m, k => by simp [foldUp]
  | e :: es, m, k => by
      rw [foldUp_cons, alookup_foldUp es]
      rw [List.reverse_cons, List.find?_append]
      cases hf : es.reverse.find? (fun x => x.1 == k) with
      | some x => simp
      | none =>
          rw [alookup_upsert]
          by_cases h : e.1 = k
          · simp [List.find?, h]
          · have h2 : ¬ k = e.1 := fun hh => h hh.symm
            have hb : (e.1 == k) = false := beq_eq_false_iff_ne.mpr h
            simp [List.find?, h, h2, hb]

theorem foldl_scanStep (env : Env) (record : List (String × PyVal)) :
    ∀ (l : List (String × PyVal)) (m : List (String × PreviewMeta)) (c : List String),
      l.foldl (scanStep env record) (m, c) =
        (foldUp m (entriesOn env record l), c ++ callsOn env record l) := by
  intro l
  induction l with
  | nil =>
      intro m c
      simp [entriesOn, callsOn, foldUp]
  | cons kv rest ih =>
      intro m c
      rw [List.foldl_cons, ih]
      unfold scanStep
      cases h : candidateEntry env kv.1 (recordValue record kv.1) with
      | some x =>
          simp only [entriesOn, callsOn, List.filterMap_cons, List.map_cons, List.flatten_cons, h,
            Option.map_some']
          rw [foldUp_cons]
          simp [entriesOn, callsOn, List.append_assoc]
      | none =>
          simp only [entriesOn, callsOn, List.filterMap_cons, List.map_cons, List.flatten_cons, h,
            Option.map_none']
          simp [entriesOn, callsOn, List.append_assoc]

theorem get_preview_tags_eq (env : Env) (record : List (String × PyVal)) :
    get_preview_tags env record =
      (sortDesc (metaSize (foldUp [] (successEntries env record)))
         ((foldUp [] (successEntries env record)).map Prod.fst),
       foldUp [] (successEntries env record),
       callsOn env record record) := by
  unfold get_preview_tags successEntries
  rw [foldl_scanStep env record record [] []]
  rfl

theorem candidateEntry_spec {env : Env} {k : String} {v : PyVal} {m : PreviewMeta}
    (h : candidateEntry env k v = some m) :
    m.full_key = k ∧ parsedSize? v = some m.size_bytes ∧ sizeInRange m.size_bytes = true ∧
    0 < m.converted_size := by
  unfold candidateEntry at h
  split at h <;> try exact Option.noConfusion h
  split at h <;> try exact Option.noConfusion h
  split at h <;> try exact Option.noConfusion h
  split at h <;> try exact Option.noConfusion h
  split at h <;> try exact Option.noConfusion h
  split at h <;> try exact Option.noConfusion h
  rename_i hc
  cases h
  refine ⟨rfl, by assumption, by assumption, ?_⟩
  refine List.length_pos.mpr (fun hnil => ?_)
  rw [hnil] at hc
  simp at hc

theorem parsedSize?_spec {v : PyVal} {n : Int} (h : parsedSize? v = some n) :
    strContains (pyStrOf v) "(Binary data" = true ∧
    ∃ tok, (strSplitOnChar ' ' (pyStrOf v))[2]? = some tok ∧ pyInt? tok = some n := by
  unfold parsedSize? at h
  split at h <;> try exact Option.noConfusion h
  rename_i hm
  split at h <;> try exact Option.noConfusion h
  rename_i tok htok
  exact ⟨hm, tok, htok, h⟩

theorem mem_entriesOn {env : Env} {record l : List (String × PyVal)} {e : String × PreviewMeta}
    (he : e ∈ entriesOn env record l) :
    ∃ kv ∈ l, candidateEntry env kv.1 (recordValue record kv.1) = some e.2 ∧
      e.1 = localTagName kv.1 := by
  unfold entriesOn at he
  rcases List.mem_filterMap.mp he with ⟨kv, hkv, hmap⟩
  rcases Option.map_eq_some'.mp hmap with ⟨x, hx, hxe⟩
  subst hxe
  exact ⟨kv, hkv, hx, rfl⟩

/-- C10 (confirmed): for every metadata record the scanner's dict has at
most one entry per local tag name (its key list has no duplicates), and
the entry stored under a local tag name is exactly the one produced by
the last successfully processed record key with that local name — a
later-iterated qualified key overwrites an earlier one sharing its local
tag name. -/
theorem C10_overwrite (env : Env) (record : List (String × PyVal)) :
    ((get_preview_tags env record).2.1.map Prod.fst).Nodup ∧
    ∀ t, alookup (get_preview_tags env record).2.1 t =
      ((successEntries env record).reverse.find? (fun e => e.1 == t)).map Prod.snd := by
  rw [get_preview_tags_eq]
  dsimp only
  constructor
  · exact nodup_keys_foldUp (successEntries env record) [] (by simp)
  · intro t
    rw [alookup_foldUp]
    cases hf : (successEntries env record).reverse.find? (fun e => e.1 == t) with
    | some e => simp
    | none => simp [alookup]

/-- C1 (corrected, amended part): a key is retained by the scanner only if
its stringified value contains the "(Binary data" marker, the third token
of the value under Python's single-space split parses (with Python int
semantics) as an integer equal to the recorded declared size, and that
size lies in [10240, 20971520]; every key whose descriptor fails these
conditions is excluded from the scanner's output, silently. -/
theorem C1_scanner_filter (env : Env) (record : List (String × PyVal)) (t : String)
    (m : PreviewMeta)
    (h : alookup (get_preview_tags env record).2.1 t = some m) :
    (strContains (pyStrOf (recordValue record m.full_key)) "(Binary data" = true ∧
      (∃ tok, (strSplitOnChar ' ' (pyStrOf (recordValue record m.full_key)))[2]? = some tok ∧
        pyInt? tok = some m.size_bytes) ∧
      10240 ≤ m.size_bytes ∧ m.size_bytes ≤ 20971520) ∧
    (∀ k, (∀ n, parsedSize? (recordValue record k) = some n → sizeInRange n = false) →
      m.full_key ≠ k) := by
  rw [get_preview_tags_eq] at h
  dsimp only at h
  rw [alookup_foldUp] at h
  cases hf : (successEntries env record).reverse.find? (fun e => e.1 == t) with
  | none =>
      rw [hf] at h
      exact Option.noConfusion h
  | some e =>
      rw [hf] at h
      dsimp only at h
      cases h
      have he : e ∈ successEntries env record :=
        List.mem_reverse.mp (List.mem_of_find?_eq_some hf)
      obtain ⟨kv, hkv, hce, het⟩ := mem_entriesOn he
      obtain ⟨hfk, hps, hr, hpos⟩ := candidateEntry_spec hce
      constructor
      · rw [hfk]
        obtain ⟨hm, tok, htok, hint⟩ := parsedSize?_spec hps
        refine ⟨hm, ⟨tok, htok, hint⟩, ?_⟩
        unfold sizeInRange at hr
        simp at hr
        exact ⟨by omega, by omega⟩
      · intro k hk hcon
        have hk2 : kv.1 = k := by
          rw [← hfk]
          exact hcon
        rw [hk2] at hps
        have hfalse := hk e.2.size_bytes hps
        rw [hfalse] at hr
        exact Bool.noConfusion hr

/-- C1 (counterexample): a value whose third single-space token is the
in-range integer 20000 but whose third whitespace-delimited token is the
non-integer "x" (a tab hides inside the first space token) is retained by
the scanner, while the claim's whitespace reading says its descriptor
does not parse and the key must be excluded. -/
theorem C1_counterexample :
    alookup (get_preview_tags envOK recordTab).2.1 "Bar" =
      some ⟨"Foo:Bar", 20000, 10, 4, 3, "JPEG", "JPEG", "Bar"⟩ ∧
    wsThirdTokenSize? (PyVal.str "a\tb x 20000 (Binary data") = none := by
  decide

/-- C1 witness: the amended filter conditions hold for a retained
well-formed descriptor. -/
theorem C1_witness :
    strContains (pyStrOf (recordValue recordPreview metaPreview.full_key)) "(Binary data" = true ∧
    10240 ≤ metaPreview.size_bytes ∧ metaPreview.size_bytes ≤ 20971520 :=
  ⟨(C1_scanner_filter envOK recordPreview "PreviewImage" metaPreview (by decide)).1.1,
   (C1_scanner_filter envOK recordPreview "PreviewImage" metaPreview (by decide)).1.2.2⟩

theorem candidateCalls_eq (env : Env) (k : String) (v : PyVal) :
    candidateCalls env k v =
      (match parsedSize? v with
       | some n => if sizeInRange n then [localTagName k] else []
       | none => []) := by
  unfold candidateCalls
  cases parsedSize? v with
  | none => rfl
  | some n =>
      dsimp only
      by_cases hr : sizeInRange n
      · rw [if_pos hr, if_pos hr]
        exact extractLoop_attempted_single env.exiftoolB (localTagName k)
      · rw [if_neg hr, if_neg hr]

theorem callsOn_cons (env : Env) (record : List (String × PyVal)) (kv : String × PyVal)
    (rest : List (String × PyVal)) :
    callsOn env record (kv :: rest) =
      candidateCalls env kv.1 (recordValue record kv.1) ++ callsOn env record rest := by
  unfold callsOn
  rw [List.map_cons, List.flatten_cons]

theorem callsOn_eq (env : Env) (record : List (String × PyVal)) :
    ∀ l, callsOn env record l = (scanCandidatesOn record l).map (fun p => localTagName p.1)
  | [] => rfl
  | kv :: rest => by
      rw [callsOn_cons, candidateCalls_eq, callsOn_eq env record rest]
      unfold scanCandidatesOn
      rw [List.filterMap_cons]
      cases hps : parsedSize? (recordValue record kv.1) with
      | none => simp
      | some n =>
          dsimp only
          by_cases hr : sizeInRange n
          · rw [if_pos hr, if_pos hr]
            simp [scanCandidatesOn]
          · rw [if_neg hr, if_neg hr]
            simp [scanCandidatesOn]

/-- C4 (corrected, amended part): the scan step is not extraction-free.
The exiftool calls get_preview_tags makes while scanning are exactly one
extraction call per key passing the static size filter (for that key's
local tag name) — in particular the pure filter scanCandidates, which
depends only on the metadata text, determines the full call trace. -/
theorem C4_scan_calls (env : Env) (record : List (String × PyVal)) :
    (get_preview_tags env record).2.2 =
      (scanCandidates record).map (fun p => localTagName p.1) := by
  rw [get_preview_tags_eq]
  dsimp only
  unfold scanCandidates
  exact callsOn_eq env record record

/-- C4 (counterexample): on a record with one well-formed binary
descriptor the scanner performs an extraction call during scanning — its
call trace is nonempty — while the claim says it never invokes the
external tool during scanning. -/
theorem C4_counterexample :
    (get_preview_tags envOK recordPreview).2.2 = ["PreviewImage"] ∧
    (get_preview_tags envOK recordPreview).2.2 ≠ [] := by
  decide

-- ===== Sorting lemmas and the manifest =====

theorem mem_insertDesc (key : String → Int) (x a : String) :
    ∀ l, a ∈ insertDesc key x l ↔ a = x ∨ a ∈ l
  | [] => by simp [insertDesc]
  | y :: ys => by
      unfold insertDesc
      by_cases h : key y ≤ key x
      · rw [if_pos h]
        simp
      · rw [if_neg h]
        rw [List.mem_cons, List.mem_cons, mem_insertDesc key x a ys]
        tauto

theorem pairwise_insertDesc (key : String → Int) (x : String) :
    ∀ l, l.Pairwise (fun a b => key b ≤ key a) →
      (insertDesc key x l).Pairwise (fun a b => key b ≤ key a)
  | [], _ => by simp [insertDesc]
  | y :: ys, h => by
      unfold insertDesc
      rcases List.pairwise_cons.mp h with ⟨hy, hys⟩
      by_cases hxy : key y ≤ key x
      · rw [if_pos hxy]
        refine List.pairwise_cons.mpr ⟨?_, h⟩
        intro z hz
        rcases List.mem_cons.mp hz with rfl | hz2
        · exact hxy
        · exact le_trans (hy z hz2) hxy
      · rw [if_neg hxy]
        refine List.pairwise_cons.mpr ⟨?_, pairwise_insertDesc key x ys hys⟩
        intro z hz
        rcases (mem_insertDesc key x z ys).mp hz with rfl | hz2
        · exact le_of_not_le hxy
        · exact hy z hz2

theorem pairwise_sortDesc (key : String → Int) :
    ∀ l, (sortDesc key l).Pairwise (fun a b => key b ≤ key a)
  | [] => List.Pairwise.nil
  | x :: xs => pairwise_insertDesc key x (sortDesc key xs) (pairwise_sortDesc key xs)

theorem alookup_mem_keys (m : List (String × PreviewMeta)) (t : String) :
    t ∈ m.map Prod.fst → ∃ x, alookup m t = some x := by
  induction m with
  | nil => simp
  | cons p rest ih =>
      intro ht
      rw [List.map_cons, List.mem_cons] at ht
      rcases ht with rfl | ht2
      · exact ⟨p.2, by simp [alookup]⟩
      · by_cases h : p.1 = t
        · exact ⟨p.2, by simp [alookup, h]⟩
        · obtain ⟨x, hx⟩ := ih ht2
          exact ⟨x, by simp [alookup, h, hx]⟩

theorem metaSize_eq {m : List (String × PreviewMeta)} {t : String} {x : PreviewMeta}
    (h : alookup m t = some x) : metaSize m t = x.size_bytes := by
  unfold metaSize
  rw [h]

theorem get_preview_tags_fst (env : Env) (record : List (String × PyVal)) :
    (get_preview_tags env record).1 =
      sortDesc (metaSize (get_preview_tags env record).2.1)
        ((get_preview_tags env record).2.1.map Prod.fst) := by
  rw [get_preview_tags_eq]

/-- C7 (confirmed): the final preview manifest has at most 5 entries, is
ordered by declared original size descending, and every entry comes from
a retained candidate whose conversion succeeded with a non-empty payload
(zero-length conversions and failed conversions are excluded). -/
theorem C7_manifest (env : Env) (record : List (String × PyVal)) :
    (previewManifest env record).length ≤ 5 ∧
    (previewManifest env record).Pairwise (fun p q => q.raw_size_bytes ≤ p.raw_size_bytes) ∧
    ∀ p ∈ previewManifest env record,
      0 < p.size_bytes ∧
      ∃ x, alookup (get_preview_tags env record).2.1 p.tag = some x ∧
        p = previewEntryOf p.tag x ∧ p.size_bytes = x.converted_size ∧
        0 < x.converted_size := by
  refine ⟨?_, ?_, ?_⟩
  · unfold previewManifest buildPreviews
    calc (((((get_preview_tags env record).1.take 5).filterMap
            (fun t => (alookup (get_preview_tags env record).2.1 t).map (previewEntryOf t))).filter
            (fun p => 0 < p.size_bytes))).length
        ≤ (((get_preview_tags env record).1.take 5).filterMap
            (fun t => (alookup (get_preview_tags env record).2.1 t).map (previewEntryOf t))).length :=
          List.length_filter_le _ _
      _ ≤ ((get_preview_tags env record).1.take 5).length := List.length_filterMap_le _ _
      _ ≤ 5 := by
          rw [List.length_take]
          exact min_le_left _ _
  · unfold previewManifest buildPreviews
    refine List.Pairwise.sublist (List.filter_sublist _) ?_
    rw [List.pairwise_filterMap]
    refine List.Pairwise.sublist (List.take_sublist 5 _) ?_
    rw [get_preview_tags_fst]
    refine (pairwise_sortDesc (metaSize (get_preview_tags env record).2.1)
      ((get_preview_tags env record).2.1.map Prod.fst)).imp ?_
    intro a b hab x hx y hy
    rw [Option.mem_def, Option.map_eq_some'] at hx hy
    obtain ⟨ma, hma, hmax⟩ := hx
    obtain ⟨mb, hmb, hmby⟩ := hy
    have hxa : x.raw_size_bytes = ma.size_bytes := by rw [← hmax]; rfl
    have hyb : y.raw_size_bytes = mb.size_bytes := by rw [← hmby]; rfl
    rw [hxa, hyb, ← metaSize_eq hma, ← metaSize_eq hmb]
    exact hab
  · intro p hp
    unfold previewManifest buildPreviews at hp
    rw [List.mem_filter] at hp
    obtain ⟨hp1, hp2⟩ := hp
    have hpos : 0 < p.size_bytes := of_decide_eq_true hp2
    rcases List.mem_filterMap.mp hp1 with ⟨t, ht, hmap⟩
    rcases Option.map_eq_some'.mp hmap with ⟨x, hx, hxp⟩
    have htag : p.tag = t := by rw [← hxp]; rfl
    have hsz : p.size_bytes = x.converted_size := by rw [← hxp]; rfl
    refine ⟨hpos, x, ?_, ?_, hsz, ?_⟩
    · rw [htag]
      exact hx
    · rw [htag, ← hxp]
    · rw [← hsz]
      exact hpos

/-- C7 witness: the concrete one-candidate manifest's entry has positive
converted size. -/
theorem C7_witness : 0 < (previewEntryOf "PreviewImage" metaPreview).size_bytes :=
  ((C7_manifest envOK recordPreview).2.2 (previewEntryOf "PreviewImage" metaPreview)
    (by decide)).1

end PreviewRawImage
